import Mathlib

set_option maxRecDepth 4000

namespace DataPrepKit

/-! ## Partition Transform Engine (src/transforms/language/doc_quality/doc_quality_actor.py)

A pyarrow `Table` is embedded as a list of named columns, each column holding one
cell per record.  The external scoring functions imported inside
`DocQualityTransform.transform` (doc_Gopher_statistics, doc_c4_statistics) and the
KenLM perplexity model handle `self.klm` are external collaborators of this
repository; they are embedded as an opaque record `Scorers` of pure per-record
functions, exactly as the spec treats them. -/

/-- A single cell of a pyarrow column: a text value, a numeric score, or a
boolean flag. -/
inductive Cell where
  | str : String → Cell
  | num : ℚ → Cell
  | bool : Bool → Cell
deriving DecidableEq

/-- One pyarrow column: its name and one value per record. -/
abbrev TColumn := String × List Cell

/-- A pyarrow `Table`: a list of named columns. -/
abbrev Table := List TColumn

/-- `table.column_names`. -/
def columnNames (t : Table) : List String := t.map Prod.fst

/-- `table.drop(c)`: the table without the column(s) named `c`. -/
def dropColumn : Table → String → Table
  | [], _ => []
  | col :: t, c => if col.1 = c then dropColumn t c else col :: dropColumn t c

/-- `table[c]` followed by `.to_pylist()`: the values of the first column named
`c`; `none` embeds the `KeyError` pyarrow raises when the column is absent. -/
def lookupColumn : Table → String → Option (List Cell)
  | [], _ => none
  | col :: t, c => if col.1 = c then some col.2 else lookupColumn t c

/-- The table obtained by replacing the values of every column named `c` with
`vs` (a statement-side gadget used to express that an output does not depend on
the pre-existing values of a dropped column). -/
def setColumnValues : Table → String → List Cell → Table
  | [], _, _ => []
  | col :: t, c, vs => (if col.1 = c then (c, vs) else col) :: setColumnValues t c vs

/-- The table with every column whose name occurs in `cols` removed (the net
effect of the successive `table.drop` calls of the collision loop). -/
def filterOut (cols : List String) : Table → Table
  | [] => []
  | col :: t => if col.1 ∈ cols then filterOut cols t else col :: filterOut cols t

/-- The `new_columns` list of `DocQualityTransform.transform` (lines 62-77), in
source order. -/
def new_columns : List String :=
  ["docq_total_words",
   "docq_mean_word_len",
   "docq_symbol_to_word_ratio",
   "docq_sentence_count",
   "docq_lorem_ipsum_ratio",
   "docq_curly_bracket_ratio",
   "docq_contain_bad_word",
   "docq_avg_ja_sentence_len",
   "docq_first_ja_alphabet_pos",
   "ibmkenlm_docq_perplex_score",
   "docq_contain_common_en_words",
   "docq_bullet_point_ratio",
   "docq_ellipsis_line_ratio",
   "docq_alphabet_word_ratio"]

/-- The external scoring functions used per record by
`DocQualityTransform.transform`: the doc_Gopher_statistics and
doc_c4_statistics imports plus the KenLM model handle `self.klm`.  The spec
treats all of them as opaque pure scoring functions; the engine only threads
text cells through them. -/
structure Scorers where
  compute_word_statistics : Cell → Cell × Cell × Cell
  c4_sentence_count : Cell → String → Cell
  c4_contain_pattern_ratio : Cell → String → String → Bool → ℚ
  c4_contains_ldnoobw_words : Cell → String → Cell
  compute_bullet_point_ellipsis_alphabet_word_ratio : Cell → Cell × Cell × Cell
  contains_common_English_words : Cell → String → Cell
  klm_get_perplexity : Cell → Cell
  compute_average_japanese_sentence_length : Cell → Cell
  find_first_japanese_alphabet_position : Cell → Cell

/-- Lines 121-126: `curly_bracket_ratio` starts at 0.0 and accumulates
`c4_contain_pattern_ratio` over the two curly-bracket signs, with
`normalize_text=False`. -/
def curlyBracketRatio (S : Scorers) (ftLang : String) (text : Cell) : ℚ :=
  S.c4_contain_pattern_ratio text "\x7b" ftLang false +
  S.c4_contain_pattern_ratio text "\x7d" ftLang false

/-- The columns appended by `DocQualityTransform.transform`: the per-record
lists built by the scoring loop (lines 93-144) passed to the
`table.append_column` calls (lines 146-161), in the source's append order, with
the two Japanese-only columns appended exactly when `ft_lang == "ja"`.  The
single per-record loop building one list per feature is embedded as one map per
feature (the scoring functions are pure and never observe each other's
output). -/
def appendedColumns (S : Scorers) (ftLang rePat : String) (texts : List Cell) : Table :=
  [("docq_total_words", texts.map fun text => (S.compute_word_statistics text).1),
   ("docq_mean_word_len", texts.map fun text => (S.compute_word_statistics text).2.1),
   ("docq_symbol_to_word_ratio", texts.map fun text => (S.compute_word_statistics text).2.2),
   ("docq_sentence_count", texts.map fun text => S.c4_sentence_count text ftLang),
   ("docq_lorem_ipsum_ratio", texts.map fun text =>
      Cell.num (S.c4_contain_pattern_ratio text "lorem ipsum" ftLang true)),
   ("docq_curly_bracket_ratio", texts.map fun text => Cell.num (curlyBracketRatio S ftLang text)),
   ("docq_contain_bad_word", texts.map fun text => S.c4_contains_ldnoobw_words text rePat),
   ("docq_bullet_point_ratio", texts.map fun text =>
      (S.compute_bullet_point_ellipsis_alphabet_word_ratio text).1),
   ("docq_ellipsis_line_ratio", texts.map fun text =>
      (S.compute_bullet_point_ellipsis_alphabet_word_ratio text).2.1),
   ("docq_alphabet_word_ratio", texts.map fun text =>
      (S.compute_bullet_point_ellipsis_alphabet_word_ratio text).2.2),
   ("docq_contain_common_en_words", texts.map fun text =>
      S.contains_common_English_words text ftLang),
   ("ibmkenlm_docq_perplex_score", texts.map fun text => S.klm_get_perplexity text)] ++
  (if ftLang = "ja" then
    [("docq_avg_ja_sentence_len", texts.map fun text =>
        S.compute_average_japanese_sentence_length text),
     ("docq_first_ja_alphabet_pos", texts.map fun text =>
        S.find_first_japanese_alphabet_position text)]
   else [])

/-- The Feature Column Set: the names of the columns the engine produces for a
given language tag, in the order they are appended. -/
def featureColumnSet (ftLang : String) : List String :=
  ["docq_total_words",
   "docq_mean_word_len",
   "docq_symbol_to_word_ratio",
   "docq_sentence_count",
   "docq_lorem_ipsum_ratio",
   "docq_curly_bracket_ratio",
   "docq_contain_bad_word",
   "docq_bullet_point_ratio",
   "docq_ellipsis_line_ratio",
   "docq_alphabet_word_ratio",
   "docq_contain_common_en_words",
   "ibmkenlm_docq_perplex_score"] ++
  (if ftLang = "ja" then ["docq_avg_ja_sentence_len", "docq_first_ja_alphabet_pos"] else [])

/-- A Python value bound to `drop_column_if_existed`: argparse stores the
literal default `False` as a Python bool, while a value supplied on the command
line arrives as a string. -/
inductive ArgValue where
  | pybool : Bool → ArgValue
  | pystr : String → ArgValue
deriving DecidableEq

/-- Python truthiness of such a value, as tested by
`if self.drop_column_if_existed:`: a bool stands for itself and a string is
truthy iff nonempty. -/
def ArgValue.truthy : ArgValue → Bool
  | .pybool b => b
  | .pystr s => !(s == "")

/-- The configuration dict handed to `DocQualityTransform.__init__`: the two
keys the constructor reads, `none` meaning the key is absent from the dict. -/
structure Config where
  ft_lang : Option String
  drop_column_if_existed : Option ArgValue
deriving DecidableEq

/-- The instance attributes of a `DocQualityTransform`.  `warning_issued` and
`drop_column_if_existed` are bound by `__init__` (the KenLM handle `self.klm`
it also binds is external and embedded in `Scorers`).  `ft_lang`, `col_name`
and `re_pattern` are read by `transform` but never assigned by this class, so
they are `Option`s: `none` means the attribute is unbound (reading it raises
`AttributeError`). -/
structure DocQualityState where
  warning_issued : Bool
  drop_column_if_existed : ArgValue
  ft_lang : Option String
  col_name : Option String
  re_pattern : Option String
deriving DecidableEq

/-- `DocQualityTransform.__init__` (lines 24-40): reads `config["ft_lang"]`
(a `KeyError` — `none` — if absent) but stores it only in the local used to
load the KenLM model; sets `self.warning_issued = False`; sets
`self.drop_column_if_existed` from the config when the key is present and to
`True` otherwise.  No other attribute is assigned. -/
def DocQualityTransform.init (config : Config) : Option DocQualityState :=
  match config.ft_lang with
  | none => none
  | some _ftLang =>
      some { warning_issued := false
             drop_column_if_existed := config.drop_column_if_existed.getD (.pybool true)
             ft_lang := none
             col_name := none
             re_pattern := none }

/-- How a call of `transform` can fail to produce output: the `exit(-1)` of the
collision policy (lines 86-91), an `AttributeError` on an unbound instance
attribute, or the pyarrow `KeyError` on a missing text column. -/
inductive TransformErr where
  | exitMinusOne : TransformErr
  | missingAttr : TransformErr
  | keyError : TransformErr
deriving DecidableEq

/-- The collision loop of `transform` (lines 78-91): iterate over
`new_columns`; a name already present in the evolving table is dropped when the
flag is truthy — printing the warning only if `warning_issued` is still false
and then setting it — and aborts the process (`none`) otherwise.  The `Nat`
accumulates how many warnings this call printed. -/
def collisionLoop (dropFlag : Bool) : List String → Bool → Nat → Table →
    Option (Bool × Nat × Table)
  | [], w, n, t => some (w, n, t)
  | column :: rest, w, n, t =>
    if column ∈ columnNames t then
      if dropFlag then
        if w then collisionLoop dropFlag rest w n (dropColumn t column)
        else collisionLoop dropFlag rest true (n + 1) (dropColumn t column)
      else none
    else collisionLoop dropFlag rest w n t

/-- The result of one `transform` call: how many collision warnings it printed,
the instance state afterwards, and either the returned list of tables or the
way the call died. -/
structure TransformResult where
  warnings : Nat
  state : DocQualityState
  output : Except TransformErr (List Table)

/-- The part of `transform` after the collision loop (lines 105-163): read
`self.ft_lang` (line 105), `self.col_name` (line 110) and the text column;
`self.re_pattern` (line 127) is only read inside the per-record loop, hence
only when the batch has at least one record; on success return the single
table with the feature columns appended. -/
def afterCollision (S : Scorers) (self1 : DocQualityState) (n : Nat) (table1 : Table) :
    TransformResult :=
  match self1.ft_lang with
  | none => ⟨n, self1, .error .missingAttr⟩
  | some ftLang =>
    match self1.col_name with
    | none => ⟨n, self1, .error .missingAttr⟩
    | some colName =>
      match lookupColumn table1 colName with
      | none => ⟨n, self1, .error .keyError⟩
      | some texts =>
        match texts, self1.re_pattern with
        | [], _ => ⟨n, self1, .ok [table1 ++ appendedColumns S ftLang "" []]⟩
        | _ :: _, none => ⟨n, self1, .error .missingAttr⟩
        | _ :: _, some rePat => ⟨n, self1, .ok [table1 ++ appendedColumns S ftLang rePat texts]⟩

/-- `DocQualityTransform.transform` (lines 42-163): run the collision loop,
record the possibly-updated `warning_issued` flag, then score and assemble. -/
def DocQualityTransform.transform (S : Scorers) (self : DocQualityState) (table : Table) :
    TransformResult :=
  match collisionLoop self.drop_column_if_existed.truthy new_columns self.warning_issued 0 table with
  | none => ⟨0, self, .error .exitMinusOne⟩
  | some (w, n, table1) => afterCollision S { self with warning_issued := w } n table1

/-- A sequence of `transform` calls on one engine instance, threading the
instance state and summing the printed collision warnings; a call that dies
ends the instance's lifetime (its warnings still count). -/
def runBatches (S : Scorers) : DocQualityState → List Table → Nat
  | _, [] => 0
  | st, t :: ts =>
    match (DocQualityTransform.transform S st t).output with
    | .ok _ =>
        (DocQualityTransform.transform S st t).warnings +
          runBatches S (DocQualityTransform.transform S st t).state ts
    | .error _ => (DocQualityTransform.transform S st t).warnings

/-- Whether an `Except` is a success. -/
def exceptIsOk {ε α : Type} : Except ε α → Bool
  | .ok _ => true
  | .error _ => false

/-! ## CLI/config boundary (DocQualityTransformRuntimeFactory) -/

/-- A parsed argparse namespace for the two transform-specific arguments. -/
structure ArgNamespace where
  ft_lang : String
  drop_column_if_existed : ArgValue
deriving DecidableEq

/-- `DocQualityTransformRuntimeFactory.add_input_params` (lines 177-185)
together with argparse's parse step: `--ft_lang` defaults to `"en"` and
`--drop_column_if_existed` defaults to the Python bool `False`; a value
supplied on the command line arrives as a string. -/
def parseDocQualityArgs (ftLangCli : Option String) (dropCli : Option String) : ArgNamespace :=
  { ft_lang := ftLangCli.getD "en"
    drop_column_if_existed :=
      match dropCli with
      | some s => .pystr s
      | none => .pybool false }

/-- The `self.params` dict the factory fills: both keys are always set. -/
structure FactoryParams where
  ft_lang : String
  drop_column_if_existed : ArgValue
deriving DecidableEq

/-- `DocQualityTransformRuntimeFactory.apply_input_params` (lines 187-196):
copies both parsed arguments into `self.params` and returns `True`
unconditionally — no validation. -/
def DocQualityTransformRuntimeFactory.apply_input_params (args : ArgNamespace) :
    FactoryParams × Bool :=
  ({ ft_lang := args.ft_lang, drop_column_if_existed := args.drop_column_if_existed }, true)

/-- The configuration dict built from the factory's params: both keys present. -/
def configOfParams (ps : FactoryParams) : Config :=
  { ft_lang := some ps.ft_lang, drop_column_if_existed := some ps.drop_column_if_existed }

/-! ## Pipeline Orchestrator
(src/kfp/transform_workflows/universal/blocklisting/blocklisting_wf.py)

The kfp DSL calls of `blocklisting` build a pipeline graph; the graph is
embedded directly: each component invocation becomes a `PipelineTask` (with the
timeout later attached by `ComponentUtils.add_settings_to_component` and the S3
credential env-var attachments of `ComponentUtils.set_s3_env_vars_to_component`),
the `dsl.ExitHandler(clean_up_task)` block becomes the `exitTask`/`bodyTasks`
split, and `dsl.get_pipeline_conf().set_timeout` becomes `pipelineTimeout`. -/

/-- A value appearing in a component argument: a pipeline-parameter string, an
integer, the `dsl.RUN_ID_PLACEHOLDER`, another task's output, or a nested dict
such as `exec_params`. -/
inductive PVal where
  | str : String → PVal
  | int : Int → PVal
  | runIdPlaceholder : PVal
  | taskOutput : String → PVal
  | dict : List (String × PVal) → PVal

/-- One instantiated kfp component in the pipeline graph. -/
structure PipelineTask where
  component : String
  args : List (String × PVal)
  timeout : Nat
  after : List String
  envSecrets : List (String × Option String)

/-- The pipeline graph `blocklisting` builds: the exit-handler task (created
before the body), the tasks inside the `dsl.ExitHandler` scope in creation
order, the textual creation order, and the pipeline-wide timeout. -/
structure PipelineSpec where
  exitTask : PipelineTask
  bodyTasks : List PipelineTask
  creationOrder : List String
  pipelineTimeout : Nat

/-- Modelled from the spec: the constant `ONE_HOUR_SEC` imported from
`kfp_support.workflow_support.utils` (not under src/), one hour in seconds. -/
def ONE_HOUR_SEC : Nat := 3600

/-- Modelled from the spec: the constant `ONE_WEEK_SEC` imported from
`kfp_support.workflow_support.utils` (not under src/), one week in seconds. -/
def ONE_WEEK_SEC : Nat := 7 * 24 * 3600

/-- `EXEC_SCRIPT_NAME` (line 25). -/
def EXEC_SCRIPT_NAME : String := "transformer_launcher.py"

/-- `TASK_NAME` (line 41). -/
def TASK_NAME : String := "blocklist"

/-- `PREFIX` (line 42), the namespace prefix of the auxiliary blocklist S3
credentials. -/
def PREFIX_STR : String := "blocklist"

/-- The parameters of the `blocklisting` pipeline function (lines 49-67), with
their source names. -/
structure BlocklistingParams where
  ray_name : String
  ray_head_options : String
  ray_worker_options : String
  server_url : String
  additional_params : String
  lh_config : String
  max_files : Int
  actor_options : String
  pipeline_id : String
  s3_access_secret : String
  s3_config : String
  blocklist_annotation_column_name : String
  blocklist_source_url_column_name : String
  blocklist_blocked_domain_list_path : String
  blocklist_s3_config : String
  blocklist_s3_access_secret : String

/-- The default arguments of `blocklisting` (lines 50-67). -/
def blocklistingDefaults : BlocklistingParams :=
  { ray_name := "blocklisting-kfp-ray"
    ray_head_options := "\x7b\"cpu\": 1, \"memory\": 4, \"image\": \"us.icr.io/cil15-shared-registry/preprocessing-pipelines/blocklist:guftest\",             \"image_pull_secret\": \"prod-all-icr-io\"\x7d"
    ray_worker_options := "\x7b\"replicas\": 2, \"max_replicas\": 2, \"min_replicas\": 2, \"cpu\": 2, \"memory\": 4,             \"image_pull_secret\": \"prod-all-icr-io\", \"image\": \"us.icr.io/cil15-shared-registry/preprocessing-pipelines/blocklist:guftest\"\x7d"
    server_url := "http://kuberay-apiserver-service.kuberay.svc.cluster.local:8888"
    additional_params := "\x7b\"wait_interval\": 2, \"wait_cluster_ready_tmout\": 400, \"wait_cluster_up_tmout\": 300, \"wait_job_ready_tmout\": 400, \"wait_print_tmout\": 30, \"http_retries\": 5\x7d"
    lh_config := "None"
    max_files := -1
    actor_options := "\x7b\x27num_cpus\x27: 0.8\x7d"
    pipeline_id := "pipeline_id"
    s3_access_secret := "cos-access"
    s3_config := "\x7b\x27input_folder\x27: \x27cos-optimal-llm-pile/sanity-test/input/dataset=text/\x27, \x27output_folder\x27: \x27cos-optimal-llm-pile/doc_annotation_test/output_blocklist_guf/\x27\x7d"
    blocklist_annotation_column_name := "blocklisted"
    blocklist_source_url_column_name := "title"
    blocklist_blocked_domain_list_path := "cos-optimal-llm-pile/doc_annotation_test/domains"
    blocklist_s3_config := "\x7b\x27input_folder\x27: \x27cos-optimal-llm-pile/sanity-test/input/dataset=text/\x27, \x27output_folder\x27: \x27cos-optimal-llm-pile/doc_annotation_test/output_blocklist_guf/\x27\x7d"
    blocklist_s3_access_secret := "cos-access" }

/-- The `blocklisting` pipeline body (lines 107-160): create the cleanup task
(60s settings) before the `dsl.ExitHandler(clean_up_task)` scope; inside the
scope create `compute_exec_params` (2h), `ray_cluster` (2h, after
compute_exec_params) and `execute_job` (one week, after ray_cluster, with the
`exec_params` payload of lines 135-147 and the two independently prefixed S3
credential attachments of lines 153-154); finally set the pipeline-wide
timeout to one week. -/
def blocklisting (p : BlocklistingParams) : PipelineSpec :=
  let clean_up_task : PipelineTask :=
    { component := "cleanupRayComponent.yaml"
      args := [("ray_name", PVal.str p.ray_name),
               ("run_id", PVal.runIdPlaceholder),
               ("server_url", PVal.str p.server_url)]
      timeout := 60
      after := []
      envSecrets := [] }
  let compute_exec_params : PipelineTask :=
    { component := "default_compute_execution_params"
      args := [("worker_options", PVal.str p.ray_worker_options),
               ("actor_options", PVal.str p.actor_options)]
      timeout := ONE_HOUR_SEC * 2
      after := []
      envSecrets := [] }
  let ray_cluster : PipelineTask :=
    { component := "createRayComponent.yaml"
      args := [("ray_name", PVal.str p.ray_name),
               ("run_id", PVal.runIdPlaceholder),
               ("ray_head_options", PVal.str p.ray_head_options),
               ("ray_worker_options", PVal.str p.ray_worker_options),
               ("server_url", PVal.str p.server_url),
               ("additional_params", PVal.str p.additional_params)]
      timeout := ONE_HOUR_SEC * 2
      after := ["default_compute_execution_params"]
      envSecrets := [] }
  let execute_job : PipelineTask :=
    { component := "executeRayJobComponent_multi_s3.yaml"
      args := [("ray_name", PVal.str p.ray_name),
               ("run_id", PVal.runIdPlaceholder),
               ("additional_params", PVal.str p.additional_params),
               ("exec_params", PVal.dict
                 [("s3_config", PVal.str p.s3_config),
                  ("lh_config", PVal.str p.lh_config),
                  ("max_files", PVal.int p.max_files),
                  ("num_workers", PVal.taskOutput "default_compute_execution_params"),
                  ("worker_options", PVal.str p.actor_options),
                  ("pipeline_id", PVal.str p.pipeline_id),
                  ("job_id", PVal.runIdPlaceholder),
                  ("blocklist_annotation_column_name",
                    PVal.str p.blocklist_annotation_column_name),
                  ("blocklist_source_url_column_name",
                    PVal.str p.blocklist_source_url_column_name),
                  ("blocklist_blocked_domain_list_path",
                    PVal.str p.blocklist_blocked_domain_list_path),
                  ("blocklist_s3_config", PVal.str p.blocklist_s3_config)]),
               ("exec_script_name", PVal.str EXEC_SCRIPT_NAME),
               ("server_url", PVal.str p.server_url),
               ("prefix", PVal.str PREFIX_STR)]
      timeout := ONE_WEEK_SEC
      after := ["createRayComponent.yaml"]
      envSecrets := [(p.s3_access_secret, none),
                     (p.blocklist_s3_access_secret, some PREFIX_STR)] }
  { exitTask := clean_up_task
    bodyTasks := [compute_exec_params, ray_cluster, execute_job]
    creationOrder := ["cleanupRayComponent.yaml",
                      "default_compute_execution_params",
                      "createRayComponent.yaml",
                      "executeRayJobComponent_multi_s3.yaml"]
    pipelineTimeout := ONE_WEEK_SEC }

/-- The keyword argument `k` of a task. -/
def lookupArg (tk : PipelineTask) (k : String) : Option PVal :=
  match tk.args.find? (fun a => a.1 == k) with
  | some a => some a.2
  | none => none

/-- The third body task of the pipeline: the execute stage. -/
def getExecTask (ps : PipelineSpec) : Option PipelineTask :=
  match ps.bodyTasks with
  | _ :: _ :: et :: _ => some et
  | _ => none

/-- The key-value pairs of the execute stage's `exec_params` payload. -/
def execParamsOf (ps : PipelineSpec) : List (String × PVal) :=
  match getExecTask ps with
  | some et =>
    match lookupArg et "exec_params" with
    | some (PVal.dict d) => d
    | _ => []
  | none => []

/-- How one pipeline stage ends: success, failure (an exception or a stage
timeout), or external cancellation of the run. -/
inductive StageOutcome where
  | success : StageOutcome
  | failure : StageOutcome
  | cancelled : StageOutcome
deriving DecidableEq

/-- Modelled from the spec: sequential execution of the exit-handler body (the
kfp runtime is not under src/) — the body tasks are invoked in order and the
first failing or cancelled stage short-circuits the rest; the returned list is
the trace of invoked task components. -/
def bodyTrace : List PipelineTask → (Nat → StageOutcome) → Nat → List String
  | [], _, _ => []
  | tk :: ts, oc, i =>
    match oc i with
    | .success => tk.component :: bodyTrace ts oc (i + 1)
    | .failure => [tk.component]
    | .cancelled => [tk.component]

/-- Modelled from the spec: the `dsl.ExitHandler` guarantee (the kfp runtime is
not under src/) — whatever way the body exits (success of all stages, a stage
failure or timeout, or cancellation), the registered exit task is invoked
exactly once afterwards. -/
def runPipeline (ps : PipelineSpec) (oc : Nat → StageOutcome) : List String :=
  bodyTrace ps.bodyTasks oc 0 ++ [ps.exitTask.component]

/-! ## Concrete fixtures (used by witnesses) -/

/-- How many more collision warnings an instance may still print: one if the
one-time flag is still unset, none afterwards. -/
def warnBudget (b : Bool) : Nat := if b then 0 else 1

/-- A concrete instantiation of the external scoring functions (constant
scores), used to evaluate the engine on concrete inputs. -/
def constScorers : Scorers :=
  { compute_word_statistics := fun _ => (Cell.num 0, Cell.num 0, Cell.num 0)
    c4_sentence_count := fun _ _ => Cell.num 0
    c4_contain_pattern_ratio := fun _ _ _ _ => 0
    c4_contains_ldnoobw_words := fun _ _ => Cell.bool false
    compute_bullet_point_ellipsis_alphabet_word_ratio :=
      fun _ => (Cell.num 0, Cell.num 0, Cell.num 0)
    contains_common_English_words := fun _ _ => Cell.bool false
    klm_get_perplexity := fun _ => Cell.num 0
    compute_average_japanese_sentence_length := fun _ => Cell.num 0
    find_first_japanese_alphabet_position := fun _ => Cell.num 0 }

/-- Three sample text records. -/
def sampleTexts : List Cell := [Cell.str "a", Cell.str "b", Cell.str "c"]

/-- A clean 3-record input batch: a single text column, no feature columns. -/
def tEn : Table := [("contents", sampleTexts)]

/-- A 3-record input batch that already carries the feature column
`docq_total_words`. -/
def tColl : Table := [("contents", sampleTexts), ("docq_total_words", sampleTexts)]

/-- A fully configured English-language engine state with the drop flag set. -/
def stEn : DocQualityState :=
  { warning_issued := false
    drop_column_if_existed := .pybool true
    ft_lang := some "en"
    col_name := some "contents"
    re_pattern := some "pat" }

/-- The same state with `drop_column_if_existed` false. -/
def stNoDrop : DocQualityState :=
  { stEn with drop_column_if_existed := .pybool false }

/-- A config dict carrying only `ft_lang`. -/
def cfgEn : Config := { ft_lang := some "en", drop_column_if_existed := none }

/-- The state `__init__` produces from `cfgEn`. -/
def stInit : DocQualityState :=
  { warning_issued := false
    drop_column_if_existed := .pybool true
    ft_lang := none
    col_name := none
    re_pattern := none }

/-! ## Table lemmas -/

theorem filterOut_nil (cols : List String) : filterOut cols [] = [] := rfl

theorem filterOut_cons (cols : List String) (col : TColumn) (t : Table) :
    filterOut cols (col :: t) =
      if col.1 ∈ cols then filterOut cols t else col :: filterOut cols t := rfl

theorem mem_filterOut {cols : List String} {col : TColumn} {t : Table} :
    col ∈ filterOut cols t ↔ col ∈ t ∧ col.1 ∉ cols := by
  induction t with
  | nil => simp [filterOut_nil]
  | cons hd tl ih =>
    rw [filterOut_cons]
    by_cases h : hd.1 ∈ cols
    · rw [if_pos h, ih]
      constructor
      · rintro ⟨h1, h2⟩
        exact ⟨List.mem_cons_of_mem _ h1, h2⟩
      · rintro ⟨h1, h2⟩
        rcases List.mem_cons.mp h1 with rfl | h1
        · exact absurd h h2
        · exact ⟨h1, h2⟩
    · rw [if_neg h]
      constructor
      · intro hm
        rcases List.mem_cons.mp hm with rfl | hm
        · exact ⟨List.mem_cons_self _ _, h⟩
        · obtain ⟨h1, h2⟩ := ih.mp hm
          exact ⟨List.mem_cons_of_mem _ h1, h2⟩
      · rintro ⟨h1, h2⟩
        rcases List.mem_cons.mp h1 with rfl | h1
        · exact List.mem_cons_self _ _
        · exact List.mem_cons_of_mem _ (ih.mpr ⟨h1, h2⟩)

theorem columnNames_filterOut_not_mem {cols : List String} {c : String} (hc : c ∈ cols)
    (t : Table) : c ∉ columnNames (filterOut cols t) := by
  intro hm
  rcases List.mem_map.mp hm with ⟨col, hcol, rfl⟩
  exact (mem_filterOut.mp hcol).2 hc

theorem filterOut_eq_self {cols : List String} {t : Table}
    (h : ∀ c ∈ cols, c ∉ columnNames t) : filterOut cols t = t := by
  induction t with
  | nil => rfl
  | cons hd tl ih =>
    rw [filterOut_cons]
    have hhd : hd.1 ∉ cols := by
      intro hmem
      exact h hd.1 hmem (List.mem_map.mpr ⟨hd, List.mem_cons_self _ _, rfl⟩)
    rw [if_neg hhd]
    rw [ih]
    intro c hcc hnames
    exact h c hcc (List.mem_map.mpr
      ⟨(List.mem_map.mp hnames).choose,
        List.mem_cons_of_mem _ (List.mem_map.mp hnames).choose_spec.1,
        (List.mem_map.mp hnames).choose_spec.2⟩)

theorem filterOut_sublist (cols : List String) (t : Table) :
    List.Sublist (filterOut cols t) t := by
  induction t with
  | nil => exact List.Sublist.refl _
  | cons hd tl ih =>
    rw [filterOut_cons]
    by_cases h : hd.1 ∈ cols
    · rw [if_pos h]; exact ih.cons hd
    · rw [if_neg h]; exact ih.cons₂ hd

theorem dropColumn_cons (col : TColumn) (t : Table) (c : String) :
    dropColumn (col :: t) c =
      if col.1 = c then dropColumn t c else col :: dropColumn t c := rfl

theorem dropColumn_eq_self {t : Table} {c : String} (h : c ∉ columnNames t) :
    dropColumn t c = t := by
  induction t with
  | nil => rfl
  | cons hd tl ih =>
    rw [dropColumn_cons]
    have h1 : hd.1 ≠ c := by
      intro hcon
      exact h (List.mem_map.mpr ⟨hd, List.mem_cons_self _ _, hcon⟩)
    rw [if_neg h1, ih]
    intro hmem
    rcases List.mem_map.mp hmem with ⟨col, hcol, rfl⟩
    exact h (List.mem_map.mpr ⟨col, List.mem_cons_of_mem _ hcol, rfl⟩)

theorem filterOut_cons_head (c : String) (rest : List String) (t : Table) :
    filterOut (c :: rest) t = filterOut rest (dropColumn t c) := by
  induction t with
  | nil => rfl
  | cons hd tl ih =>
    rw [filterOut_cons, dropColumn_cons]
    by_cases h1 : hd.1 = c
    · rw [if_pos (by rw [h1]; exact List.mem_cons_self _ _), if_pos h1, ih]
    · rw [if_neg h1]
      by_cases h2 : hd.1 ∈ rest
      · rw [if_pos (List.mem_cons_of_mem _ h2), ih, filterOut_cons, if_pos h2]
      · have : hd.1 ∉ c :: rest := by
          intro hmem
          rcases List.mem_cons.mp hmem with h | h
          · exact h1 h
          · exact h2 h
        rw [if_neg this, ih, filterOut_cons, if_neg h2]

theorem columnNames_setColumnValues (t : Table) (c : String) (vs : List Cell) :
    columnNames (setColumnValues t c vs) = columnNames t := by
  induction t with
  | nil => rfl
  | cons hd tl ih =>
    show columnNames ((if hd.1 = c then (c, vs) else hd) :: setColumnValues tl c vs) = _
    by_cases h : hd.1 = c
    · rw [if_pos h]
      show c :: columnNames (setColumnValues tl c vs) = hd.1 :: columnNames tl
      rw [ih, h]
    · rw [if_neg h]
      show hd.1 :: columnNames (setColumnValues tl c vs) = hd.1 :: columnNames tl
      rw [ih]

theorem setColumnValues_eq_self {t : Table} {c : String} (vs : List Cell)
    (h : c ∉ columnNames t) : setColumnValues t c vs = t := by
  induction t with
  | nil => rfl
  | cons hd tl ih =>
    show (if hd.1 = c then (c, vs) else hd) :: setColumnValues tl c vs = hd :: tl
    have h1 : hd.1 ≠ c := by
      intro hcon
      exact h (List.mem_map.mpr ⟨hd, List.mem_cons_self _ _, hcon⟩)
    rw [if_neg h1, ih]
    intro hmem
    rcases List.mem_map.mp hmem with ⟨col, hcol, rfl⟩
    exact h (List.mem_map.mpr ⟨col, List.mem_cons_of_mem _ hcol, rfl⟩)

theorem dropColumn_setColumnValues_same (t : Table) (c : String) (vs : List Cell) :
    dropColumn (setColumnValues t c vs) c = dropColumn t c := by
  induction t with
  | nil => rfl
  | cons hd tl ih =>
    show dropColumn ((if hd.1 = c then (c, vs) else hd) :: setColumnValues tl c vs) c = _
    rw [dropColumn_cons, dropColumn_cons]
    by_cases h : hd.1 = c
    · rw [if_pos h]
      show (if ((c, vs) : TColumn).1 = c then _ else _) = _
      rw [if_pos rfl, ih, if_pos h]
    · rw [if_neg h, if_neg h, ih, if_neg h]

theorem dropColumn_setColumnValues_ne {c' c : String} (h : c' ≠ c) (t : Table)
    (vs : List Cell) :
    dropColumn (setColumnValues t c vs) c' = setColumnValues (dropColumn t c') c vs := by
  induction t with
  | nil => rfl
  | cons hd tl ih =>
    show dropColumn ((if hd.1 = c then (c, vs) else hd) :: setColumnValues tl c vs) c' = _
    rw [dropColumn_cons, dropColumn_cons]
    by_cases h1 : hd.1 = c
    · show (if ((if hd.1 = c then ((c, vs) : TColumn) else hd)).1 = c' then _ else _) = _
      rw [if_pos h1]
      show (if ((c, vs) : TColumn).1 = c' then _ else _) = _
      have hne : c ≠ c' := fun hcon => h hcon.symm
      rw [if_neg hne]
      have h2 : hd.1 ≠ c' := by rw [h1]; exact hne
      rw [if_neg h2]
      show (c, vs) :: dropColumn (setColumnValues tl c vs) c' =
        setColumnValues (hd :: dropColumn tl c') c vs
      show (c, vs) :: dropColumn (setColumnValues tl c vs) c' =
        (if hd.1 = c then (c, vs) else hd) :: setColumnValues (dropColumn tl c') c vs
      rw [if_pos h1, ih]
    · rw [if_neg h1]
      by_cases h2 : hd.1 = c'
      · rw [if_pos h2, if_pos h2, ih]
      · rw [if_neg h2, if_neg h2]
        show hd :: dropColumn (setColumnValues tl c vs) c' =
          (if hd.1 = c then (c, vs) else hd) :: setColumnValues (dropColumn tl c') c vs
        rw [if_neg h1, ih]

theorem lookupColumn_cons (col : TColumn) (t : Table) (c : String) :
    lookupColumn (col :: t) c =
      if col.1 = c then some col.2 else lookupColumn t c := rfl

theorem lookupColumn_append_right {A : Table} {c : String} (h : c ∉ columnNames A)
    (B : Table) : lookupColumn (A ++ B) c = lookupColumn B c := by
  induction A with
  | nil => rfl
  | cons hd tl ih =>
    rw [List.cons_append, lookupColumn_cons]
    have h1 : hd.1 ≠ c := by
      intro hcon
      exact h (List.mem_map.mpr ⟨hd, List.mem_cons_self _ _, hcon⟩)
    rw [if_neg h1]
    exact ih fun hmem => by
      rcases List.mem_map.mp hmem with ⟨col, hcol, rfl⟩
      exact h (List.mem_map.mpr ⟨col, List.mem_cons_of_mem _ hcol, rfl⟩)

theorem lookupColumn_mem {t : Table} {c : String} {vs : List Cell}
    (h : lookupColumn t c = some vs) : (c, vs) ∈ t := by
  induction t with
  | nil => exact absurd h (by simp [lookupColumn])
  | cons hd tl ih =>
    rw [lookupColumn_cons] at h
    by_cases h1 : hd.1 = c
    · rw [if_pos h1] at h
      have hv : hd.2 = vs := Option.some.inj h
      have : (c, vs) = hd := by
        rw [← h1, ← hv]
      rw [this]
      exact List.mem_cons_self _ _
    · rw [if_neg h1] at h
      exact List.mem_cons_of_mem _ (ih h)

theorem lookupColumn_of_mem_names {t : Table} {c : String} (h : c ∈ columnNames t) :
    ∃ vs, lookupColumn t c = some vs := by
  induction t with
  | nil => exact absurd h (by simp [columnNames])
  | cons hd tl ih =>
    rw [lookupColumn_cons]
    by_cases h1 : hd.1 = c
    · exact ⟨hd.2, by rw [if_pos h1]⟩
    · rw [if_neg h1]
      apply ih
      rcases List.mem_map.mp h with ⟨col, hcol, rfl⟩
      rcases List.mem_cons.mp hcol with rfl | hcol
      · exact absurd rfl h1
      · exact List.mem_map.mpr ⟨col, hcol, rfl⟩

/-! ## Collision-loop lemmas -/

theorem filterOut_nil_left (t : Table) : filterOut [] t = t := by
  induction t with
  | nil => rfl
  | cons hd tl ih =>
    rw [filterOut_cons, if_neg (List.not_mem_nil hd.1), ih]

theorem columnNames_dropColumn_mem {c c' : String} (h : c ≠ c') {t : Table}
    (hm : c ∈ columnNames t) : c ∈ columnNames (dropColumn t c') := by
  induction t with
  | nil => exact absurd hm (by simp [columnNames])
  | cons hd tl ih =>
    rw [dropColumn_cons]
    rcases List.mem_cons.mp hm with heq | hm'
    · have h1 : hd.1 ≠ c' := heq ▸ h
      rw [if_neg h1]
      exact List.mem_cons.mpr (Or.inl heq)
    · by_cases h1 : hd.1 = c'
      · rw [if_pos h1]; exact ih hm'
      · rw [if_neg h1]
        exact List.mem_cons.mpr (Or.inr (ih hm'))

theorem collisionLoop_cons (dropFlag : Bool) (column : String) (rest : List String)
    (w : Bool) (n : Nat) (t : Table) :
    collisionLoop dropFlag (column :: rest) w n t =
      if column ∈ columnNames t then
        if dropFlag then
          if w then collisionLoop dropFlag rest w n (dropColumn t column)
          else collisionLoop dropFlag rest true (n + 1) (dropColumn t column)
        else none
      else collisionLoop dropFlag rest w n t := rfl

theorem collisionLoop_true (cols : List String) :
    ∀ (w : Bool) (n : Nat) (t : Table),
      ∃ w' n', collisionLoop true cols w n t = some (w', n', filterOut cols t) ∧
        (w = true → w' = true) ∧
        n' + warnBudget w' ≤ n + warnBudget w := by
  induction cols with
  | nil =>
    intro w n t
    exact ⟨w, n, by rw [filterOut_nil_left]; rfl, fun h => h, le_refl _⟩
  | cons c rest ih =>
    intro w n t
    rw [collisionLoop_cons, filterOut_cons_head]
    by_cases hmem : c ∈ columnNames t
    · rw [if_pos hmem, if_pos rfl]
      cases w with
      | false =>
        obtain ⟨w', n', heq, himp, hle⟩ := ih true (n + 1) (dropColumn t c)
        refine ⟨w', n', heq, fun h => absurd h (by decide), ?_⟩
        calc n' + warnBudget w' ≤ (n + 1) + warnBudget true := hle
          _ = n + warnBudget false := by simp [warnBudget]
      | true =>
        obtain ⟨w', n', heq, himp, hle⟩ := ih true n (dropColumn t c)
        exact ⟨w', n', heq, fun _ => himp rfl, hle⟩
    · rw [if_neg hmem]
      have hdc : dropColumn t c = t := dropColumn_eq_self hmem
      rw [hdc]
      exact ih w n t

theorem collisionLoop_false {cols : List String} {w : Bool} {n : Nat} {t : Table}
    {r : Bool × Nat × Table} (h : collisionLoop false cols w n t = some r) :
    r = (w, n, t) ∧ ∀ c ∈ cols, c ∉ columnNames t := by
  induction cols with
  | nil =>
    refine ⟨(Option.some.inj h).symm, ?_⟩
    intro c hc
    exact absurd hc (List.not_mem_nil c)
  | cons c rest ih =>
    rw [collisionLoop_cons] at h
    by_cases hmem : c ∈ columnNames t
    · rw [if_pos hmem, if_neg (by simp)] at h
      exact absurd h (by simp)
    · rw [if_neg hmem] at h
      obtain ⟨hr, hall⟩ := ih h
      refine ⟨hr, ?_⟩
      intro c' hc'
      rcases List.mem_cons.mp hc' with rfl | hc'
      · exact hmem
      · exact hall c' hc'

theorem collisionLoop_false_none {cols : List String} {c0 : String}
    (hc : c0 ∈ cols) {t : Table} (hp : c0 ∈ columnNames t) (w : Bool) (n : Nat) :
    collisionLoop false cols w n t = none := by
  induction cols with
  | nil => exact absurd hc (List.not_mem_nil c0)
  | cons c rest ih =>
    rw [collisionLoop_cons]
    by_cases hmem : c ∈ columnNames t
    · rw [if_pos hmem, if_neg (by simp)]
    · rw [if_neg hmem]
      rcases List.mem_cons.mp hc with rfl | hc'
      · exact absurd hp hmem
      · exact ih hc'

theorem collisionLoop_no_collision {cols : List String} {t : Table}
    (h : ∀ c ∈ cols, c ∉ columnNames t) (dropFlag w : Bool) (n : Nat) :
    collisionLoop dropFlag cols w n t = some (w, n, t) := by
  induction cols with
  | nil => rfl
  | cons c rest ih =>
    rw [collisionLoop_cons, if_neg (h c (List.mem_cons_self _ _))]
    exact ih fun c' hc' => h c' (List.mem_cons_of_mem _ hc')

theorem collisionLoop_setColumnValues {cols : List String} {c : String} {t : Table}
    (vs : List Cell) (hc : c ∈ cols) (hp : c ∈ columnNames t) (w : Bool) (n : Nat) :
    collisionLoop true cols w n (setColumnValues t c vs) =
      collisionLoop true cols w n t := by
  induction cols generalizing t w n with
  | nil => exact absurd hc (List.not_mem_nil c)
  | cons c0 rest ih =>
    rw [collisionLoop_cons, collisionLoop_cons, columnNames_setColumnValues]
    by_cases hmem : c0 ∈ columnNames t
    · rw [if_pos hmem, if_pos hmem]
      by_cases hcc : c0 = c
      · subst hcc
        rw [dropColumn_setColumnValues_same]
      · have hrest : c ∈ rest := by
          rcases List.mem_cons.mp hc with rfl | hr
          · exact absurd rfl hcc
          · exact hr
        have hne : c ≠ c0 := fun h => hcc h.symm
        have hne' : c0 ≠ c := hcc
        have hp' : c ∈ columnNames (dropColumn t c0) :=
          columnNames_dropColumn_mem hne hp
        rw [dropColumn_setColumnValues_ne hne']
        cases w with
        | true => exact ih hrest hp' true n
        | false => exact ih hrest hp' true (n + 1)
  -- the inner `if w` splits are definitionally the two cases above
    · rw [if_neg hmem, if_neg hmem]
      have hrest : c ∈ rest := by
        rcases List.mem_cons.mp hc with rfl | hr
        · exact absurd hp hmem
        · exact hr
      exact ih hrest hp w n

/-! ## Feature-column lemmas -/

theorem columnNames_appendedColumns (S : Scorers) (l rp : String) (texts : List Cell) :
    columnNames (appendedColumns S l rp texts) = featureColumnSet l := by
  by_cases h : l = "ja" <;>
    simp [appendedColumns, featureColumnSet, columnNames, h]

theorem appendedColumns_lengths (S : Scorers) (l rp : String) (texts : List Cell) :
    ∀ col ∈ appendedColumns S l rp texts, col.2.length = texts.length := by
  intro col hcol
  by_cases h : l = "ja"
  · simp only [appendedColumns, if_pos h] at hcol
    simp only [List.mem_append, List.mem_cons, List.not_mem_nil, or_false] at hcol
    rcases hcol with ((rfl|rfl|rfl|rfl|rfl|rfl|rfl|rfl|rfl|rfl|rfl|rfl)|(rfl|rfl)) <;>
      simp
  · simp only [appendedColumns, if_neg h, List.append_nil] at hcol
    simp only [List.mem_append, List.mem_cons, List.not_mem_nil, or_false] at hcol
    rcases hcol with (rfl|rfl|rfl|rfl|rfl|rfl|rfl|rfl|rfl|rfl|rfl|rfl) <;> simp

theorem appendedColumns_nil_rp (S : Scorers) (l rp : String) :
    appendedColumns S l rp [] = appendedColumns S l "" [] := rfl

theorem featureColumnSet_subset {l c : String} (hc : c ∈ featureColumnSet l) :
    c ∈ new_columns := by
  rw [featureColumnSet] at hc
  rcases List.mem_append.mp hc with h | h
  · fin_cases h <;> decide
  · by_cases hja : l = "ja"
    · rw [if_pos hja] at h
      fin_cases h <;> decide
    · rw [if_neg hja] at h
      exact absurd h (List.not_mem_nil c)

theorem featureColumnSet_count (l : String) :
    ∀ c ∈ featureColumnSet l, (featureColumnSet l).count c = 1 := by
  by_cases h : l = "ja"
  · rw [featureColumnSet, if_pos h]; decide
  · rw [featureColumnSet, if_neg h]; decide

/-! ## Transform-level lemmas -/

theorem afterCollision_warnings (S : Scorers) (self1 : DocQualityState) (n : Nat)
    (table1 : Table) : (afterCollision S self1 n table1).warnings = n := by
  unfold afterCollision
  split
  · rfl
  · split
    · rfl
    · split
      · rfl
      · split <;> rfl

theorem afterCollision_state (S : Scorers) (self1 : DocQualityState) (n : Nat)
    (table1 : Table) : (afterCollision S self1 n table1).state = self1 := by
  unfold afterCollision
  split
  · rfl
  · split
    · rfl
    · split
      · rfl
      · split <;> rfl

theorem afterCollision_ok {S : Scorers} {self1 : DocQualityState} {n : Nat}
    {table1 : Table} {tabs : List Table}
    (h : (afterCollision S self1 n table1).output = Except.ok tabs) :
    ∃ l cn rp texts,
      self1.ft_lang = some l ∧ self1.col_name = some cn ∧
      lookupColumn table1 cn = some texts ∧
      tabs = [table1 ++ appendedColumns S l rp texts] := by
  rcases hfl : self1.ft_lang with _ | l
  · have hout : (afterCollision S self1 n table1).output = .error .missingAttr := by
      simp [afterCollision, hfl]
    rw [hout] at h
    exact absurd h (by simp)
  · rcases hcn : self1.col_name with _ | cn
    · have hout : (afterCollision S self1 n table1).output = .error .missingAttr := by
        simp [afterCollision, hfl, hcn]
      rw [hout] at h
      exact absurd h (by simp)
    · rcases hlk : lookupColumn table1 cn with _ | texts
      · have hout : (afterCollision S self1 n table1).output = .error .keyError := by
          simp [afterCollision, hfl, hcn, hlk]
        rw [hout] at h
        exact absurd h (by simp)
      · rcases texts with _ | ⟨text0, texts'⟩
        · have hout : (afterCollision S self1 n table1).output =
              .ok [table1 ++ appendedColumns S l "" []] := by
            simp [afterCollision, hfl, hcn, hlk]
          rw [hout] at h
          exact ⟨l, cn, "", [], rfl, rfl, hlk, (Except.ok.inj h).symm⟩
        · rcases hrp : self1.re_pattern with _ | rePat
          · have hout : (afterCollision S self1 n table1).output = .error .missingAttr := by
              simp [afterCollision, hfl, hcn, hlk, hrp]
            rw [hout] at h
            exact absurd h (by simp)
          · have hout : (afterCollision S self1 n table1).output =
                .ok [table1 ++ appendedColumns S l rePat (text0 :: texts')] := by
              simp [afterCollision, hfl, hcn, hlk, hrp]
            rw [hout] at h
            exact ⟨l, cn, rePat, text0 :: texts', rfl, rfl, hlk, (Except.ok.inj h).symm⟩

theorem transform_table1 {st : DocQualityState} {t : Table}
    {w : Bool} {n : Nat} {t1 : Table}
    (hcl : collisionLoop st.drop_column_if_existed.truthy new_columns
      st.warning_issued 0 t = some (w, n, t1)) :
    t1 = filterOut new_columns t := by
  cases htr : st.drop_column_if_existed.truthy with
  | true =>
    rw [htr] at hcl
    obtain ⟨w', n', heq, -, -⟩ := collisionLoop_true new_columns st.warning_issued 0 t
    rw [heq] at hcl
    exact (congrArg (fun x => x.2.2) (Option.some.inj hcl)).symm
  | false =>
    rw [htr] at hcl
    obtain ⟨hr, hall⟩ := collisionLoop_false hcl
    have ht : t1 = t := congrArg (fun x => x.2.2) hr
    rw [ht]
    exact (filterOut_eq_self hall).symm

theorem transform_ok {S : Scorers} {st : DocQualityState} {t : Table} {tabs : List Table}
    (h : (DocQualityTransform.transform S st t).output = Except.ok tabs) :
    ∃ l cn rp texts,
      st.ft_lang = some l ∧ st.col_name = some cn ∧
      lookupColumn (filterOut new_columns t) cn = some texts ∧
      tabs = [filterOut new_columns t ++ appendedColumns S l rp texts] := by
  unfold DocQualityTransform.transform at h
  rcases hcl : collisionLoop st.drop_column_if_existed.truthy new_columns
      st.warning_issued 0 t with _ | ⟨w, n, t1⟩
  · rw [hcl] at h
    exact absurd h (by simp)
  · rw [hcl] at h
    have ht1 : t1 = filterOut new_columns t := transform_table1 hcl
    subst ht1
    obtain ⟨l, cn, rp, texts, hfl, hcn, hlk, htabs⟩ := afterCollision_ok h
    exact ⟨l, cn, rp, texts, hfl, hcn, hlk, htabs⟩

theorem transform_warnBudget (S : Scorers) (st : DocQualityState) (t : Table) :
    (DocQualityTransform.transform S st t).warnings +
      warnBudget (DocQualityTransform.transform S st t).state.warning_issued ≤
      warnBudget st.warning_issued := by
  unfold DocQualityTransform.transform
  rcases hcl : collisionLoop st.drop_column_if_existed.truthy new_columns
      st.warning_issued 0 t with _ | ⟨w, n, t1⟩
  · simp
  · rw [afterCollision_warnings, afterCollision_state]
    show n + warnBudget w ≤ warnBudget st.warning_issued
    cases htr : st.drop_column_if_existed.truthy with
    | true =>
      rw [htr] at hcl
      obtain ⟨w', n', heq, -, hle⟩ := collisionLoop_true new_columns st.warning_issued 0 t
      rw [heq] at hcl
      have hinj := Option.some.inj hcl
      have hw : w' = w := congrArg (fun x => x.1) hinj
      have hn : n' = n := congrArg (fun x => x.2.1) hinj
      rw [← hw, ← hn]
      simpa using hle
    | false =>
      rw [htr] at hcl
      obtain ⟨hr, -⟩ := collisionLoop_false hcl
      have hw : w = st.warning_issued := congrArg (fun x => x.1) hr
      have hn : n = 0 := congrArg (fun x => x.2.1) hr
      rw [hw, hn]
      simp

theorem runBatches_cons (S : Scorers) (st : DocQualityState) (t : Table) (ts : List Table) :
    runBatches S st (t :: ts) =
      match (DocQualityTransform.transform S st t).output with
      | .ok _ =>
          (DocQualityTransform.transform S st t).warnings +
            runBatches S (DocQualityTransform.transform S st t).state ts
      | .error _ => (DocQualityTransform.transform S st t).warnings := rfl

theorem runBatches_le_warnBudget (S : Scorers) (ts : List Table) :
    ∀ st : DocQualityState, runBatches S st ts ≤ warnBudget st.warning_issued := by
  induction ts with
  | nil =>
    intro st
    simp [runBatches]
  | cons t ts ih =>
    intro st
    have hb := transform_warnBudget S st t
    rw [runBatches_cons]
    rcases hro : (DocQualityTransform.transform S st t).output with e | tabs
    · exact le_trans (Nat.le_add_right _ _) hb
    · exact le_trans
        (Nat.add_le_add_left (ih (DocQualityTransform.transform S st t).state) _) hb

/-- A `transform` call on a state whose `ft_lang` attribute is unbound never
produces output: line 105 reads `self.ft_lang` unconditionally after the
collision loop. -/
theorem transform_unbound_ft_lang {st : DocQualityState} (h : st.ft_lang = none)
    (S : Scorers) (t : Table) :
    exceptIsOk (DocQualityTransform.transform S st t).output = false := by
  rcases hro : (DocQualityTransform.transform S st t).output with e | tabs
  · rfl
  · obtain ⟨l, cn, rp, texts, hfl, -, -, -⟩ := transform_ok hro
    rw [h] at hfl
    exact absurd hfl (by simp)

/-! ## Claim theorems -/

/-- C10: for every parsed argument namespace,
`DocQualityTransformRuntimeFactory.apply_input_params` returns `True`: it
performs no validation, so configuration ingestion at this boundary never
rejects an input. -/
theorem doc_quality_apply_input_params_true (args : ArgNamespace) :
    (DocQualityTransformRuntimeFactory.apply_input_params args).2 = true := rfl

/-- C5 (code bug): the CLI default of `--drop_column_if_existed` is the Python
bool `False` (line 185), and `apply_input_params` always stores it, so with the
flag not supplied the engine gets `drop_column_if_existed = False` — not `True`
as the spec states.  The constructor's own in-dict default (lines 37-40) is
`True`, which the CLI path makes unreachable; on a colliding batch the
CLI-default engine terminates instead of dropping. -/
theorem doc_quality_cli_drop_default_false :
    (parseDocQualityArgs none none).drop_column_if_existed = ArgValue.pybool false ∧
    (DocQualityTransformRuntimeFactory.apply_input_params
      (parseDocQualityArgs none none)).1.drop_column_if_existed = ArgValue.pybool false ∧
    (DocQualityTransform.init (configOfParams
      (DocQualityTransformRuntimeFactory.apply_input_params
        (parseDocQualityArgs none none)).1)).map
      (fun s => s.drop_column_if_existed.truthy) = some false ∧
    (DocQualityTransform.init cfgEn).map
      (fun s => s.drop_column_if_existed.truthy) = some true ∧
    (DocQualityTransform.transform constScorers stNoDrop tColl).output =
      Except.error TransformErr.exitMinusOne :=
  ⟨rfl, rfl, rfl, rfl, rfl⟩

/-- C9: `DocQualityTransform.__init__` leaves `ft_lang`, `col_name` and
`re_pattern` unbound (it stores the config's `ft_lang` only in a local), binding
just `warning_issued`, the KenLM handle and `drop_column_if_existed`; hence
`transform` on a freshly constructed instance never produces output until an
external collaborator binds those attributes. -/
theorem doc_quality_init_leaves_attrs_unbound (config : Config) (st : DocQualityState)
    (h : DocQualityTransform.init config = some st) :
    st.warning_issued = false ∧ st.ft_lang = none ∧ st.col_name = none ∧
    st.re_pattern = none ∧
    ∀ (S : Scorers) (t : Table),
      exceptIsOk (DocQualityTransform.transform S st t).output = false := by
  rcases hcf : config.ft_lang with _ | fl
  · simp [DocQualityTransform.init, hcf] at h
  · simp only [DocQualityTransform.init, hcf] at h
    obtain rfl := Option.some.inj h
    exact ⟨rfl, rfl, rfl, rfl, fun S t => transform_unbound_ft_lang rfl S t⟩

/-- C9 witness: the theorem applied to the concrete config `cfgEn`. -/
theorem doc_quality_init_leaves_attrs_unbound_witness :
    DocQualityTransform.init cfgEn = some stInit ∧
    exceptIsOk (DocQualityTransform.transform constScorers stInit tEn).output = false :=
  ⟨rfl, (doc_quality_init_leaves_attrs_unbound cfgEn stInit rfl).2.2.2.2 constScorers tEn⟩

/-- C8: with the drop flag set, an engine instance starting with the
`warning_issued` flag clear prints the column-drop warning at most once over
its whole lifetime, however many colliding columns, records or batches it
processes. -/
theorem doc_quality_warning_at_most_once (S : Scorers) (st : DocQualityState)
    (ts : List Table) (hw : st.warning_issued = false)
    (hdrop : st.drop_column_if_existed.truthy = true) :
    runBatches S st ts ≤ 1 := by
  have h := runBatches_le_warnBudget S ts st
  rw [hw] at h
  simpa [warnBudget] using h

/-- C8 witness: a fresh dropping engine fed the same colliding batch twice. -/
theorem doc_quality_warning_at_most_once_witness :
    stEn.warning_issued = false ∧ stEn.drop_column_if_existed.truthy = true ∧
    runBatches constScorers stEn [tColl, tColl] ≤ 1 :=
  ⟨rfl, rfl, doc_quality_warning_at_most_once constScorers stEn [tColl, tColl] rfl rfl⟩

/-- C2: collision policy.  For an input batch already containing a column of
the active Feature Column Set: with a truthy drop flag the (sole) output batch
contains that name exactly once, its values coming from the freshly computed
feature columns and not depending on the pre-existing values at all; with the
flag false the engine terminates (`exit(-1)`) without producing output. -/
theorem doc_quality_collision_policy (S : Scorers) (st : DocQualityState) (t : Table)
    (c l : String) (hl : st.ft_lang = some l) (hc : c ∈ featureColumnSet l)
    (hpres : c ∈ columnNames t) :
    (st.drop_column_if_existed.truthy = true →
      (∀ vs, DocQualityTransform.transform S st (setColumnValues t c vs) =
          DocQualityTransform.transform S st t) ∧
      ∀ tabs, (DocQualityTransform.transform S st t).output = Except.ok tabs →
        ∃ tout rp texts,
          tabs = [tout] ∧
          (columnNames tout).count c = 1 ∧
          c ∉ columnNames (filterOut new_columns t) ∧
          tout = filterOut new_columns t ++ appendedColumns S l rp texts ∧
          lookupColumn tout c = lookupColumn (appendedColumns S l rp texts) c) ∧
    (st.drop_column_if_existed.truthy = false →
      (DocQualityTransform.transform S st t).output =
        Except.error TransformErr.exitMinusOne) := by
  have hcnew : c ∈ new_columns := featureColumnSet_subset hc
  constructor
  · intro hd
    constructor
    · intro vs
      unfold DocQualityTransform.transform
      rw [hd, collisionLoop_setColumnValues vs hcnew hpres st.warning_issued 0]
    · intro tabs hok
      obtain ⟨l', cn, rp, texts, hfl, hcn, hlk, htabs⟩ := transform_ok hok
      have hll : l = l' := Option.some.inj (hl.symm.trans hfl)
      subst hll
      have h0 : c ∉ columnNames (filterOut new_columns t) :=
        columnNames_filterOut_not_mem hcnew t
      refine ⟨filterOut new_columns t ++ appendedColumns S l rp texts, rp, texts,
        htabs, ?_, h0, rfl, lookupColumn_append_right h0 _⟩
      have hmap : columnNames (filterOut new_columns t ++ appendedColumns S l rp texts) =
          columnNames (filterOut new_columns t) ++ columnNames (appendedColumns S l rp texts) :=
        List.map_append _ _ _
      rw [hmap, List.count_append, columnNames_appendedColumns,
        List.count_eq_zero_of_not_mem h0, featureColumnSet_count l c hc]
  · intro hd
    unfold DocQualityTransform.transform
    rw [hd, collisionLoop_false_none hcnew hpres st.warning_issued 0]

/-- C2 witness: the theorem applied with the flag false on a batch carrying
`docq_total_words`: the engine terminates without output. -/
theorem doc_quality_collision_policy_witness :
    stNoDrop.ft_lang = some "en" ∧
    "docq_total_words" ∈ featureColumnSet "en" ∧
    "docq_total_words" ∈ columnNames tColl ∧
    (DocQualityTransform.transform constScorers stNoDrop tColl).output =
      Except.error TransformErr.exitMinusOne :=
  ⟨rfl, by decide, by decide,
    (doc_quality_collision_policy constScorers stNoDrop tColl "docq_total_words" "en"
      rfl (by decide) (by decide)).2 rfl⟩

/-- C3: on a batch with no pre-existing feature columns, a configured engine
returns one batch with the input columns followed by exactly the Feature Column
Set of its language tag and the same number of records; for `"en"` these are
the 12 non-Japanese columns with no Japanese-only column present, for `"ja"`
the 12 plus the 2 Japanese-specific ones. -/
theorem doc_quality_language_feature_columns (S : Scorers) (st : DocQualityState)
    (t : Table) (l cn rp : String) (texts : List Cell) (nrows : Nat)
    (hl : st.ft_lang = some l) (hcn : st.col_name = some cn)
    (hrp : st.re_pattern = some rp)
    (hclean : ∀ c ∈ new_columns, c ∉ columnNames t)
    (htexts : lookupColumn t cn = some texts)
    (hwf : ∀ col ∈ t, col.2.length = nrows) :
    (DocQualityTransform.transform S st t).output =
      Except.ok [t ++ appendedColumns S l rp texts] ∧
    columnNames (t ++ appendedColumns S l rp texts) =
      columnNames t ++ featureColumnSet l ∧
    (∀ col ∈ t ++ appendedColumns S l rp texts, col.2.length = nrows) ∧
    (l = "en" → featureColumnSet l =
      ["docq_total_words", "docq_mean_word_len", "docq_symbol_to_word_ratio",
       "docq_sentence_count", "docq_lorem_ipsum_ratio", "docq_curly_bracket_ratio",
       "docq_contain_bad_word", "docq_bullet_point_ratio", "docq_ellipsis_line_ratio",
       "docq_alphabet_word_ratio", "docq_contain_common_en_words",
       "ibmkenlm_docq_perplex_score"] ∧
      "docq_avg_ja_sentence_len" ∉ columnNames (t ++ appendedColumns S l rp texts) ∧
      "docq_first_ja_alphabet_pos" ∉ columnNames (t ++ appendedColumns S l rp texts)) ∧
    (l = "ja" → featureColumnSet l =
      ["docq_total_words", "docq_mean_word_len", "docq_symbol_to_word_ratio",
       "docq_sentence_count", "docq_lorem_ipsum_ratio", "docq_curly_bracket_ratio",
       "docq_contain_bad_word", "docq_bullet_point_ratio", "docq_ellipsis_line_ratio",
       "docq_alphabet_word_ratio", "docq_contain_common_en_words",
       "ibmkenlm_docq_perplex_score", "docq_avg_ja_sentence_len",
       "docq_first_ja_alphabet_pos"]) := by
  have hnames : columnNames (t ++ appendedColumns S l rp texts) =
      columnNames t ++ featureColumnSet l := by
    have hap := columnNames_appendedColumns S l rp texts
    unfold columnNames at hap ⊢
    rw [List.map_append, hap]
  have htlen : texts.length = nrows := hwf _ (lookupColumn_mem htexts)
  have hlen : ∀ col ∈ t ++ appendedColumns S l rp texts, col.2.length = nrows := by
    intro col hcol
    rcases List.mem_append.mp hcol with h | h
    · exact hwf col h
    · rw [appendedColumns_lengths S l rp texts col h]
      exact htlen
  refine ⟨?_, hnames, hlen, ?_, ?_⟩
  · unfold DocQualityTransform.transform
    rw [collisionLoop_no_collision hclean]
    rcases texts with _ | ⟨t0, ts'⟩
    · rw [appendedColumns_nil_rp]
      simp [afterCollision, hl, hcn, htexts]
    · simp [afterCollision, hl, hcn, hrp, htexts]
  · intro he
    subst he
    refine ⟨by decide, ?_, ?_⟩
    · rw [hnames]
      intro hmem
      rcases List.mem_append.mp hmem with h | h
      · exact hclean _ (by decide) h
      · exact absurd h (by decide)
    · rw [hnames]
      intro hmem
      rcases List.mem_append.mp hmem with h | h
      · exact hclean _ (by decide) h
      · exact absurd h (by decide)
  · intro he
    subst he
    decide

/-- C3 witness: the theorem applied to a clean 3-record English batch. -/
theorem doc_quality_language_feature_columns_witness :
    stEn.ft_lang = some "en" ∧ stEn.col_name = some "contents" ∧
    stEn.re_pattern = some "pat" ∧
    (∀ c ∈ new_columns, c ∉ columnNames tEn) ∧
    lookupColumn tEn "contents" = some sampleTexts ∧
    (∀ col ∈ tEn, col.2.length = 3) ∧
    (DocQualityTransform.transform constScorers stEn tEn).output =
      Except.ok [tEn ++ appendedColumns constScorers "en" "pat" sampleTexts] :=
  ⟨rfl, rfl, rfl, by decide, rfl, by decide,
    (doc_quality_language_feature_columns constScorers stEn tEn "en" "contents" "pat"
      sampleTexts 3 rfl rfl rfl (by decide) rfl (by decide)).1⟩

/-- C4: whenever the transform produces an output batch, that batch is the
surviving input columns (a sublist of the input, each kept column untouched —
no record dropped or reordered) followed by the computed feature columns, with
exactly one occurrence and one value per record for every column of the active
Feature Column Set; the produced column names are a function of the language
tag alone. -/
theorem doc_quality_assembly_invariant (S : Scorers) (st : DocQualityState) (t : Table)
    (tabs : List Table) (l : String) (nrows : Nat)
    (hl : st.ft_lang = some l)
    (hwf : ∀ col ∈ t, col.2.length = nrows)
    (hok : (DocQualityTransform.transform S st t).output = Except.ok tabs) :
    ∃ tout rp texts,
      tabs = [tout] ∧
      tout = filterOut new_columns t ++ appendedColumns S l rp texts ∧
      List.Sublist (filterOut new_columns t) t ∧
      texts.length = nrows ∧
      (∀ col ∈ tout, col.2.length = nrows) ∧
      (∀ c ∈ featureColumnSet l, (columnNames tout).count c = 1) ∧
      (∀ c ∈ featureColumnSet l,
        ∃ vals, lookupColumn tout c = some vals ∧ vals.length = nrows) ∧
      (∀ col ∈ t, col.1 ∉ new_columns → col ∈ tout) ∧
      (∀ (S2 : Scorers) (rp2 : String) (texts2 : List Cell),
        columnNames (appendedColumns S2 l rp2 texts2) = featureColumnSet l) := by
  obtain ⟨l', cn, rp, texts, hfl, hcn, hlk, htabs⟩ := transform_ok hok
  have hll : l = l' := Option.some.inj (hl.symm.trans hfl)
  subst hll
  have hkept : ∀ col ∈ filterOut new_columns t, col ∈ t := fun col h =>
    (mem_filterOut.mp h).1
  have htexts_mem : (cn, texts) ∈ filterOut new_columns t := lookupColumn_mem hlk
  have htlen : texts.length = nrows := hwf _ (hkept _ htexts_mem)
  have hmap : columnNames (filterOut new_columns t ++ appendedColumns S l rp texts) =
      columnNames (filterOut new_columns t) ++ columnNames (appendedColumns S l rp texts) :=
    List.map_append _ _ _
  refine ⟨filterOut new_columns t ++ appendedColumns S l rp texts, rp, texts, htabs,
    rfl, filterOut_sublist _ _, htlen, ?_, ?_, ?_, ?_,
    fun S2 rp2 texts2 => columnNames_appendedColumns S2 l rp2 texts2⟩
  · intro col hcol
    rcases List.mem_append.mp hcol with h | h
    · exact hwf col (hkept col h)
    · rw [appendedColumns_lengths S l rp texts col h]
      exact htlen
  · intro c hc
    have h0 : c ∉ columnNames (filterOut new_columns t) :=
      columnNames_filterOut_not_mem (featureColumnSet_subset hc) t
    rw [hmap, List.count_append, columnNames_appendedColumns,
      List.count_eq_zero_of_not_mem h0, featureColumnSet_count l c hc]
  · intro c hc
    have h0 : c ∉ columnNames (filterOut new_columns t) :=
      columnNames_filterOut_not_mem (featureColumnSet_subset hc) t
    have hcmem : c ∈ columnNames (appendedColumns S l rp texts) := by
      rw [columnNames_appendedColumns]
      exact hc
    obtain ⟨vals, hvals⟩ := lookupColumn_of_mem_names hcmem
    refine ⟨vals, ?_, ?_⟩
    · rw [lookupColumn_append_right h0, hvals]
    · rw [appendedColumns_lengths S l rp texts _ (lookupColumn_mem hvals)]
      exact htlen
  · intro col hcol hnot
    exact List.mem_append.mpr (Or.inl (mem_filterOut.mpr ⟨hcol, hnot⟩))

/-- C4 witness: the theorem applied to a clean 3-record English batch. -/
theorem doc_quality_assembly_invariant_witness :
    stEn.ft_lang = some "en" ∧
    (∀ col ∈ tEn, col.2.length = 3) ∧
    ∃ tout rp texts,
      [tEn ++ appendedColumns constScorers "en" "pat" sampleTexts] = [tout] ∧
      tout = filterOut new_columns tEn ++ appendedColumns constScorers "en" rp texts ∧
      List.Sublist (filterOut new_columns tEn) tEn ∧
      texts.length = 3 ∧
      (∀ col ∈ tout, col.2.length = 3) ∧
      (∀ c ∈ featureColumnSet "en", (columnNames tout).count c = 1) ∧
      (∀ c ∈ featureColumnSet "en",
        ∃ vals, lookupColumn tout c = some vals ∧ vals.length = 3) ∧
      (∀ col ∈ tEn, col.1 ∉ new_columns → col ∈ tout) ∧
      (∀ (S2 : Scorers) (rp2 : String) (texts2 : List Cell),
        columnNames (appendedColumns S2 "en" rp2 texts2) = featureColumnSet "en") :=
  ⟨rfl, by decide,
    doc_quality_assembly_invariant constScorers stEn tEn
      [tEn ++ appendedColumns constScorers "en" "pat" sampleTexts] "en" 3
      rfl (by decide) rfl⟩

/-- Every component in a body trace is the component of one of the body
tasks. -/
theorem bodyTrace_mem {x : String} :
    ∀ (ts : List PipelineTask) (oc : Nat → StageOutcome) (i : Nat),
      x ∈ bodyTrace ts oc i → x ∈ ts.map (fun tk => tk.component) := by
  intro ts
  induction ts with
  | nil =>
    intro oc i h
    simp [bodyTrace] at h
  | cons tk ts ih =>
    intro oc i h
    cases ho : oc i with
    | success =>
      simp only [bodyTrace, ho] at h
      rcases List.mem_cons.mp h with rfl | h
      · exact List.mem_map.mpr ⟨tk, List.mem_cons_self _ _, rfl⟩
      · rcases List.mem_map.mp (ih oc (i + 1) h) with ⟨tk2, htk2, rfl⟩
        exact List.mem_map.mpr ⟨tk2, List.mem_cons_of_mem _ htk2, rfl⟩
    | failure =>
      simp only [bodyTrace, ho] at h
      rcases List.mem_cons.mp h with rfl | h
      · exact List.mem_map.mpr ⟨tk, List.mem_cons_self _ _, rfl⟩
      · exact absurd h (List.not_mem_nil x)
    | cancelled =>
      simp only [bodyTrace, ho] at h
      rcases List.mem_cons.mp h with rfl | h
      · exact List.mem_map.mpr ⟨tk, List.mem_cons_self _ _, rfl⟩
      · exact absurd h (List.not_mem_nil x)

/-- C1: the cleanup task is created before the three stages (first in the
creation order), all three stages — compute-params, cluster-create and
job-execute — sit inside its exit-handler scope, and for every assignment of
stage outcomes (success, failure, cancellation) the run's trace invokes the
cleanup component exactly once. -/
theorem blocklisting_cleanup_exactly_once (p : BlocklistingParams)
    (oc : Nat → StageOutcome) :
    (blocklisting p).exitTask.component = "cleanupRayComponent.yaml" ∧
    (blocklisting p).creationOrder =
      ["cleanupRayComponent.yaml", "default_compute_execution_params",
       "createRayComponent.yaml", "executeRayJobComponent_multi_s3.yaml"] ∧
    ((blocklisting p).bodyTasks.map (fun tk => tk.component)) =
      ["default_compute_execution_params", "createRayComponent.yaml",
       "executeRayJobComponent_multi_s3.yaml"] ∧
    (runPipeline (blocklisting p) oc).count "cleanupRayComponent.yaml" = 1 := by
  refine ⟨rfl, rfl, rfl, ?_⟩
  unfold runPipeline
  rw [List.count_append]
  have hnot : "cleanupRayComponent.yaml" ∉ bodyTrace (blocklisting p).bodyTasks oc 0 := by
    intro hmem
    have hm := bodyTrace_mem (blocklisting p).bodyTasks oc 0 hmem
    have h3 : ((blocklisting p).bodyTasks.map (fun tk => tk.component)) =
        ["default_compute_execution_params", "createRayComponent.yaml",
         "executeRayJobComponent_multi_s3.yaml"] := rfl
    rw [h3] at hm
    exact absurd hm (by decide)
  rw [List.count_eq_zero_of_not_mem hnot]
  show 0 + List.count "cleanupRayComponent.yaml" ["cleanupRayComponent.yaml"] = 1
  decide

/-- C7: the pipeline-wide timeout is one week, and the per-stage timeouts are
2 hours for compute-params, 2 hours for cluster-create, one week for execute,
and 60 seconds for cleanup. -/
theorem blocklisting_timeouts (p : BlocklistingParams) :
    (blocklisting p).pipelineTimeout = ONE_WEEK_SEC ∧
    ONE_WEEK_SEC = 604800 ∧
    ONE_HOUR_SEC = 3600 ∧
    (blocklisting p).exitTask.timeout = 60 ∧
    ((blocklisting p).bodyTasks.map (fun tk => tk.timeout)) =
      [ONE_HOUR_SEC * 2, ONE_HOUR_SEC * 2, ONE_WEEK_SEC] :=
  ⟨rfl, rfl, rfl, rfl, rfl⟩

/-- C6 counterexample: the execute stage's `exec_params` payload of the
blocklisting pipeline (at its default arguments) carries exactly these eleven
keys — no language-tag parameter (`ft_lang`, `language`, `lang`) is among
them, contrary to the claim. -/
theorem blocklisting_exec_params_no_language_tag :
    (execParamsOf (blocklisting blocklistingDefaults)).map Prod.fst =
      ["s3_config", "lh_config", "max_files", "num_workers", "worker_options",
       "pipeline_id", "job_id", "blocklist_annotation_column_name",
       "blocklist_source_url_column_name", "blocklist_blocked_domain_list_path",
       "blocklist_s3_config"] ∧
    "ft_lang" ∉ (execParamsOf (blocklisting blocklistingDefaults)).map Prod.fst ∧
    "language" ∉ (execParamsOf (blocklisting blocklistingDefaults)).map Prod.fst ∧
    "lang" ∉ (execParamsOf (blocklisting blocklistingDefaults)).map Prod.fst :=
  ⟨rfl, by decide, by decide, by decide⟩

/-- C6 (amended): the execute payload contains the annotation column name, the
source-url column name and the denylist resource path — but no language tag —
alongside the two storage configs, max-files, the worker-concurrency options,
pipeline id, run id, and, on the execute op itself, the cluster name, run id
and the two independently prefixed credential attachments. -/
theorem blocklisting_exec_payload_fields (p : BlocklistingParams) :
    (execParamsOf (blocklisting p)).map Prod.fst =
      ["s3_config", "lh_config", "max_files", "num_workers", "worker_options",
       "pipeline_id", "job_id", "blocklist_annotation_column_name",
       "blocklist_source_url_column_name", "blocklist_blocked_domain_list_path",
       "blocklist_s3_config"] ∧
    ("blocklist_annotation_column_name", PVal.str p.blocklist_annotation_column_name) ∈
      execParamsOf (blocklisting p) ∧
    ("blocklist_source_url_column_name", PVal.str p.blocklist_source_url_column_name) ∈
      execParamsOf (blocklisting p) ∧
    ("blocklist_blocked_domain_list_path", PVal.str p.blocklist_blocked_domain_list_path) ∈
      execParamsOf (blocklisting p) ∧
    ("s3_config", PVal.str p.s3_config) ∈ execParamsOf (blocklisting p) ∧
    ("blocklist_s3_config", PVal.str p.blocklist_s3_config) ∈
      execParamsOf (blocklisting p) ∧
    ("max_files", PVal.int p.max_files) ∈ execParamsOf (blocklisting p) ∧
    ("worker_options", PVal.str p.actor_options) ∈ execParamsOf (blocklisting p) ∧
    ("pipeline_id", PVal.str p.pipeline_id) ∈ execParamsOf (blocklisting p) ∧
    ("job_id", PVal.runIdPlaceholder) ∈ execParamsOf (blocklisting p) ∧
    ("num_workers", PVal.taskOutput "default_compute_execution_params") ∈
      execParamsOf (blocklisting p) ∧
    ∃ et, getExecTask (blocklisting p) = some et ∧
      lookupArg et "ray_name" = some (PVal.str p.ray_name) ∧
      lookupArg et "run_id" = some PVal.runIdPlaceholder ∧
      et.envSecrets = [(p.s3_access_secret, none),
                       (p.blocklist_s3_access_secret, some "blocklist")] := by
  refine ⟨rfl, ?_, ?_, ?_, ?_, ?_, ?_, ?_, ?_, ?_, ?_, ⟨_, rfl, rfl, rfl, rfl⟩⟩ <;>
    simp [execParamsOf, getExecTask, lookupArg, blocklisting]

end DataPrepKit
